import Mathlib

/-!
Verification of the smolagents OpenInference instrumentation wrappers
(`openinference/instrumentation/smolagents/_wrappers.py`).

The development shallowly embeds the module's pure core:

* Python values are the mutual inductive `Value` / `VList` / `VMap`
  (scalars, strings, enum members, lists, mappings, and opaque objects
  that may or may not expose a pydantic-v1 style `dict()` export).
* `json.dumps` with the module's `SafeJSONEncoder` is `dumpsSafe`;
  plain `json.dumps` is `plainDumps`.
* `_flatten`, `_get_input_value`, `_bind_arguments` and the four
  wrapper classes `_RunWrapper`, `_StepWrapper`, `_ModelWrapper`,
  `_ToolCallWrapper` are embedded as executable functions.
  A wrapper takes the ambient context (suppression flag plus propagated
  attributes), read-only views of the intercepted instance, the wrapped
  callable's signature and call arguments, and the outcome of the
  wrapped call; it returns the call outcome it propagates together with
  the span it built (`none` when no span was started).
* Exceptions are `PyExc` values: a message string plus a tag that
  distinguishes distinct exception objects carrying equal messages.
-/

/-- A Python exception object: its `str(...)` message plus an identity tag so
that two distinct exception objects with the same message stay distinct. -/
structure PyExc where
  msg : String
  tag : Nat
deriving DecidableEq, Repr

mutual
/-- A Python runtime value as seen by the instrumentation module: `None`,
scalars, strings, `Enum` members (carrying their `.value` payload and their
printable form), lists, string-keyed mappings, and opaque objects.  An opaque
object either has no callable `dict` method (`vobj`), has one returning a
value (`vobjDict`), or has one that raises (`vobjDictRaises`); each carries
its `repr(...)` string. -/
inductive Value where
  | vnone
  | vint (n : Int)
  | vbool (b : Bool)
  | vstr (s : String)
  | venum (u : Value) (r : String)
  | vlist (xs : VList)
  | vmap (es : VMap)
  | vobj (r : String)
  | vobjDict (d : Value) (r : String)
  | vobjDictRaises (e : PyExc) (r : String)

/-- A Python list of values. -/
inductive VList where
  | nil
  | cons (v : Value) (tl : VList)

/-- A Python string-keyed mapping (insertion ordered, as Python dicts are). -/
inductive VMap where
  | nil
  | cons (k : String) (v : Value) (tl : VMap)
end

/-- Python truthiness (`bool(x)`), as used by `if not mapping` and
`if additional_args`.  Objects and enum members are truthy. -/
def pyTruthy : Value → Bool
  | .vnone => false
  | .vint n => n != 0
  | .vbool b => b
  | .vstr s => s ≠ ""
  | .venum _ _ => true
  | .vlist .nil => false
  | .vlist (.cons _ _) => true
  | .vmap .nil => false
  | .vmap (.cons _ _ _) => true
  | .vobj _ => true
  | .vobjDict _ _ => true
  | .vobjDictRaises _ _ => true

/-- The `isinstance(x, Mapping)` test. -/
def isMapping : Value → Bool
  | .vmap _ => true
  | _ => false

/-- The `x is None` test. -/
def pyIsNone : Value → Bool
  | .vnone => true
  | _ => false

/-- The `any(isinstance(item, Mapping) for item in value)` test. -/
def VList.anyMapping : VList → Bool
  | .nil => false
  | .cons v tl => isMapping v || tl.anyMapping

def VList.ofList : List Value → VList
  | [] => .nil
  | v :: tl => .cons v (VList.ofList tl)

def VList.toList : VList → List Value
  | .nil => []
  | .cons v tl => v :: tl.toList

def VMap.ofList : List (String × Value) → VMap
  | [] => .nil
  | (k, v) :: tl => .cons k v (VMap.ofList tl)

def VMap.toList : VMap → List (String × Value)
  | .nil => []
  | .cons k v tl => (k, v) :: tl.toList

def VMap.append : VMap → VMap → VMap
  | .nil, b => b
  | .cons k v tl, b => .cons k v (tl.append b)

/-- A single quote character, for Python `repr` of strings. -/
def pyQuoteChar : String := "\x27"

mutual
/-- Python `str(x)` (simplified deterministic model of the stdlib rendering:
container elements are rendered with `repr`, as Python does). -/
def pyStr : Value → String
  | .vnone => "None"
  | .vint n => toString n
  | .vbool b => if b then "True" else "False"
  | .vstr s => s
  | .venum _ r => r
  | .vlist xs => "[" ++ String.intercalate ", " (pyReprList xs) ++ "]"
  | .vmap es => "\x7b" ++ String.intercalate ", " (pyReprMap es) ++ "\x7d"
  | .vobj r => r
  | .vobjDict _ r => r
  | .vobjDictRaises _ r => r

/-- Python `repr(x)` (same as `pyStr` except strings are quoted). -/
def pyRepr : Value → String
  | .vnone => "None"
  | .vint n => toString n
  | .vbool b => if b then "True" else "False"
  | .vstr s => pyQuoteChar ++ s ++ pyQuoteChar
  | .venum _ r => r
  | .vlist xs => "[" ++ String.intercalate ", " (pyReprList xs) ++ "]"
  | .vmap es => "\x7b" ++ String.intercalate ", " (pyReprMap es) ++ "\x7d"
  | .vobj r => r
  | .vobjDict _ r => r
  | .vobjDictRaises _ r => r

def pyReprList : VList → List String
  | .nil => []
  | .cons v tl => pyRepr v :: pyReprList tl

def pyReprMap : VMap → List String
  | .nil => []
  | .cons k v tl => (pyQuoteChar ++ k ++ pyQuoteChar ++ ": " ++ pyRepr v) :: pyReprMap tl
end

/-- JSON string escaping (deterministic model: quote and backslash escaped). -/
def jsonEscapeChar (c : Char) : String :=
  if c = '"' ∨ c = '\\' then String.mk ['\\', c] else String.mk [c]

def jsonEscape (s : String) : String :=
  String.join (s.toList.map jsonEscapeChar)

def jsonQuote (s : String) : String := "\"" ++ jsonEscape s ++ "\""

/-- The `TypeError` raised by `json.dumps` on a non-serializable object. -/
def typeErrorNotSerializable : PyExc := ⟨"Object is not JSON serializable", 1⟩

/-- The `AttributeError` raised by `mapping.items()` on a non-mapping. -/
def attributeErrorItems : PyExc := ⟨"object has no attribute items", 2⟩

/-- The `AttributeError` raised by `output.model_dump_json()` when the wrapped
call's output has no such method. -/
def attributeErrorModelDumpJson : PyExc := ⟨"object has no attribute model_dump_json", 3⟩

/-- The `TypeError` raised by `\x7b**x\x7d` when `x` is not a mapping. -/
def typeErrorMappingUnpack : PyExc := ⟨"argument after ** must be a mapping", 4⟩

def tooManyPositionalError : PyExc := ⟨"too many positional arguments", 5⟩

def multipleValuesError (k : String) : PyExc := ⟨"multiple values for argument " ++ k, 6⟩

def unexpectedKeywordError (k : String) : PyExc := ⟨"got an unexpected keyword argument " ++ k, 7⟩

def missingArgumentError (k : String) : PyExc := ⟨"missing a required argument: " ++ k, 8⟩

mutual
/-- `json.dumps(value, cls=SafeJSONEncoder)`: standard serialization, and for a
non-serializable object the module's `SafeJSONEncoder.default`: try the
standard encoder (always a `TypeError` for such objects), then if the object
has a callable `dict` method return `o.dict()` and serialize its result (an
exception raised by `o.dict()` propagates), else serialize `repr(o)`. -/
def dumpsSafe : Value → Except PyExc String
  | .vnone => .ok "null"
  | .vint n => .ok (toString n)
  | .vbool b => .ok (if b then "true" else "false")
  | .vstr s => .ok (jsonQuote s)
  | .venum _ r => .ok (jsonQuote r)
  | .vlist xs => do
      let parts ← dumpsSafeList xs
      pure ("[" ++ String.intercalate ", " parts ++ "]")
  | .vmap es => do
      let parts ← dumpsSafeMap es
      pure ("\x7b" ++ String.intercalate ", " parts ++ "\x7d")
  | .vobj r => .ok (jsonQuote r)
  | .vobjDict d _ => dumpsSafe d
  | .vobjDictRaises e _ => .error e

def dumpsSafeList : VList → Except PyExc (List String)
  | .nil => .ok []
  | .cons v tl => do
      let s ← dumpsSafe v
      let rest ← dumpsSafeList tl
      pure (s :: rest)

def dumpsSafeMap : VMap → Except PyExc (List String)
  | .nil => .ok []
  | .cons k v tl => do
      let s ← dumpsSafe v
      let rest ← dumpsSafeMap tl
      pure ((jsonQuote k ++ ": " ++ s) :: rest)
end

mutual
/-- Plain `json.dumps(value)` (no encoder class): enum members and opaque
objects raise `TypeError`. -/
def plainDumps : Value → Except PyExc String
  | .vnone => .ok "null"
  | .vint n => .ok (toString n)
  | .vbool b => .ok (if b then "true" else "false")
  | .vstr s => .ok (jsonQuote s)
  | .venum _ _ => .error typeErrorNotSerializable
  | .vlist xs => do
      let parts ← plainDumpsList xs
      pure ("[" ++ String.intercalate ", " parts ++ "]")
  | .vmap es => do
      let parts ← plainDumpsMap es
      pure ("\x7b" ++ String.intercalate ", " parts ++ "\x7d")
  | .vobj _ => .error typeErrorNotSerializable
  | .vobjDict _ _ => .error typeErrorNotSerializable
  | .vobjDictRaises _ _ => .error typeErrorNotSerializable

def plainDumpsList : VList → Except PyExc (List String)
  | .nil => .ok []
  | .cons v tl => do
      let s ← plainDumps v
      let rest ← plainDumpsList tl
      pure (s :: rest)

def plainDumpsMap : VMap → Except PyExc (List String)
  | .nil => .ok []
  | .cons k v tl => do
      let s ← plainDumps v
      let rest ← plainDumpsMap tl
      pure ((jsonQuote k ++ ": " ++ s) :: rest)
end

mutual
/-- A value contains no reachable object whose duck-typed `dict()` export
raises (reachable along the paths `dumpsSafe` serializes). -/
def dictSafe : Value → Bool
  | .vobjDictRaises _ _ => false
  | .vobjDict d _ => dictSafe d
  | .vlist xs => dictSafeList xs
  | .vmap es => dictSafeMap es
  | _ => true

def dictSafeList : VList → Bool
  | .nil => true
  | .cons v tl => dictSafe v && dictSafeList tl

def dictSafeMap : VMap → Bool
  | .nil => true
  | .cons _ v tl => dictSafe v && dictSafeMap tl
end

/-- Python `d.get(k)` on an insertion-ordered association list where a later
binding of a key shadows an earlier one (so it agrees with `dict` lookup). -/
def lookupLast (l : List (String × Value)) (k : String) : Option Value :=
  match l with
  | [] => none
  | (k2, v) :: rest =>
    match lookupLast rest k with
    | some v2 => some v2
    | none => if k2 == k then some v else none

/-- Inserting `k ↦ v` into a Python dict: update in place if present,
append otherwise. -/
def insertPy (d : List (String × Value)) (k : String) (v : Value) : List (String × Value) :=
  if d.any (fun kv => kv.1 == k) then
    d.map (fun kv => if kv.1 == k then (kv.1, v) else kv)
  else d ++ [(k, v)]

/-- Building a Python dict from a sequence of pairs (`dict(pairs)` or a
`\x7b**a, **b\x7d` merge of the concatenation): first-occurrence key order,
last value wins. -/
def pyDict (l : List (String × Value)) : List (String × Value) :=
  l.foldl (fun d kv => insertPy d kv.1 kv.2) []

example : pyDict [("a", .vint 1), ("b", .vint 2), ("a", .vint 3)]
    = [("a", .vint 3), ("b", .vint 2)] := rfl

example : lookupLast [("a", .vint 1), ("a", .vint 3)] "a" = some (.vint 3) := rfl

mutual
/-- The module's `_flatten(mapping)` generator, run to completion.  A falsy
argument (`if not mapping`) yields nothing; a truthy mapping is iterated by
`flattenEntries`; a truthy non-mapping reaches `mapping.items()` and raises
`AttributeError`.  The result collects the yielded `(key, value)` pairs, or
the exception the generator raises while being consumed. -/
def _flatten : Value → Except PyExc (List (String × Value))
  | .vmap es => flattenEntries es
  | v => if pyTruthy v then .error attributeErrorItems else .ok []

/-- One `for key, value in mapping.items()` pass of `_flatten`: `None` values
are skipped; a mapping value is recursively flattened under `key.`; a list
value containing at least one mapping is flattened elementwise under
`key.index.`; an `Enum` value is unwrapped to its `.value`; anything else is
yielded as-is. -/
def flattenEntries : VMap → Except PyExc (List (String × Value))
  | .nil => .ok []
  | .cons k v rest =>
    match v with
    | .vnone => flattenEntries rest
    | .vmap sub => do
        let xs ← flattenEntries sub
        let ys ← flattenEntries rest
        pure (xs.map (fun p => (k ++ "." ++ p.1, p.2)) ++ ys)
    | .vlist items =>
        if items.anyMapping then do
          let xs ← flattenSeq k 0 items
          let ys ← flattenEntries rest
          pure (xs ++ ys)
        else do
          let ys ← flattenEntries rest
          pure ((k, Value.vlist items) :: ys)
    | .venum u _ => do
        let ys ← flattenEntries rest
        pure ((k, u) :: ys)
    | other => do
        let ys ← flattenEntries rest
        pure ((k, other) :: ys)

/-- The `for index, sub_mapping in enumerate(value)` loop of `_flatten`:
every element (mapping or not) is passed back through `_flatten` and its
yields are prefixed with `key.index.`. -/
def flattenSeq (k : String) (i : Nat) : VList → Except PyExc (List (String × Value))
  | .nil => .ok []
  | .cons v vs => do
      let xs ← _flatten v
      let rest ← flattenSeq k (i + 1) vs
      pure (xs.map (fun p => (k ++ "." ++ toString i ++ "." ++ p.1, p.2)) ++ rest)
end

/-- The kind of a declared parameter: an ordinary positional-or-keyword
parameter, or the variadic keyword catch-all (`**kwargs`).  These are the two
kinds the wrapped smolagents call sites use. -/
inductive ParamKind where
  | posOrKw
  | varKw
deriving DecidableEq

/-- One declared parameter of a Python callable's `inspect.Signature`. -/
structure Param where
  name : String
  kind : ParamKind
  default : Option Value

/-- Phase one of `inspect.Signature.bind`: consume positional arguments
against the declared parameters in order; returns the positional assignments
and the parameters not consumed positionally. -/
def bindPos : List Param → List Value → Except PyExc (List (String × Value) × List Param)
  | ps, [] => .ok ([], ps)
  | [], _ :: _ => .error tooManyPositionalError
  | p :: ps, a :: rest =>
    match p.kind with
    | .varKw => .error tooManyPositionalError
    | .posOrKw => do
        let (asg, rem) ← bindPos ps rest
        pure ((p.name, a) :: asg, rem)

def isPosOrKwNamed (k : String) (p : Param) : Bool :=
  p.name == k && (match p.kind with | .posOrKw => true | .varKw => false)

/-- Phase two of `inspect.Signature.bind`: route each keyword argument either
to a declared parameter not already bound positionally, to the variadic
keyword container, or to a `TypeError`. -/
def bindKw (remaining : List Param) (posNames : List String) (hasVarKw : Bool) :
    List (String × Value) → Except PyExc (List (String × Value) × List (String × Value))
  | [] => .ok ([], [])
  | (k, v) :: rest =>
    if posNames.contains k then .error (multipleValuesError k)
    else if remaining.any (isPosOrKwNamed k) then do
      let (asg, ex) ← bindKw remaining posNames hasVarKw rest
      pure ((k, v) :: asg, ex)
    else if hasVarKw then do
      let (asg, ex) ← bindKw remaining posNames hasVarKw rest
      pure (asg, (k, v) :: ex)
    else .error (unexpectedKeywordError k)

/-- Phase three of `inspect.Signature.bind`: assemble `BoundArguments.arguments`
in declaration order.  Without `apply_defaults`, unfilled defaulted parameters
and an empty variadic container are omitted; with it they are filled in.
A missing required parameter is a `TypeError` either way. -/
def assemble (applyDefs : Bool) (posAsg kwAsg extras : List (String × Value)) :
    List Param → Except PyExc (List (String × Value))
  | [] => .ok []
  | p :: ps =>
    match p.kind with
    | .varKw => do
        let rest ← assemble applyDefs posAsg kwAsg extras ps
        if extras.isEmpty && !applyDefs then pure rest
        else pure ((p.name, Value.vmap (VMap.ofList extras)) :: rest)
    | .posOrKw =>
      match lookupLast posAsg p.name with
      | some v => do
          let rest ← assemble applyDefs posAsg kwAsg extras ps
          pure ((p.name, v) :: rest)
      | none =>
        match lookupLast kwAsg p.name with
        | some v => do
            let rest ← assemble applyDefs posAsg kwAsg extras ps
            pure ((p.name, v) :: rest)
        | none =>
          match p.default with
          | some d =>
              if applyDefs then do
                let rest ← assemble applyDefs posAsg kwAsg extras ps
                pure ((p.name, d) :: rest)
              else assemble applyDefs posAsg kwAsg extras ps
          | none => .error (missingArgumentError p.name)

/-- `inspect.Signature.bind(*args, **kwargs)` followed (when `applyDefs`) by
`apply_defaults()`, returning the ordered `arguments` mapping. -/
def bindArgs (sig : List Param) (args : List Value) (kwargs : List (String × Value))
    (applyDefs : Bool) : Except PyExc (List (String × Value)) := do
  let (posAsg, remaining) ← bindPos sig args
  let hasVarKw := sig.any (fun p => match p.kind with | .varKw => true | .posOrKw => false)
  let (kwAsg, extras) ← bindKw remaining (posAsg.map Prod.fst) hasVarKw kwargs
  assemble applyDefs posAsg kwAsg extras sig

/-- The module's `_bind_arguments(method, *args, **kwargs)`:
`signature(method).bind(*args, **kwargs)` plus `apply_defaults()`. -/
def _bind_arguments (sig : List Param) (args : List Value)
    (kwargs : List (String × Value)) : Except PyExc (List (String × Value)) :=
  bindArgs sig args kwargs true

/-- The module's `_get_input_value(method, *args, **kwargs)`: bind the call's
arguments against the declared signature (supplying a placeholder `None` for a
leading `self` parameter), drop `self` and the variadic `kwargs` container
from the top level, merge the container's entries into the top level, and
serialize the result with `safe_json_dumps(..., cls=SafeJSONEncoder)` (the
external `safe_json_dumps` is modelled as `json.dumps` with the supplied
encoder class). -/
def _get_input_value (sig : List Param) (args : List Value)
    (kwargs : List (String × Value)) : Except PyExc String := do
  let hasSelf := match sig.head? with
    | some p => p.name == "self"
    | none => false
  let ba ← bindArgs sig ((if hasSelf then [Value.vnone] else []) ++ args) kwargs false
  let top := ba.filter (fun kv => !(kv.1 == "self") && !(kv.1 == "kwargs"))
  let extras ← match lookupLast ba "kwargs" with
    | some (.vmap es) => pure es.toList
    | some _ => .error typeErrorMappingUnpack
    | none => pure []
  dumpsSafe (.vmap (VMap.ofList (pyDict (top ++ extras))))

/-- The status of a span: unset (the OpenTelemetry default), OK, or error
with a description. -/
inductive SpanStatus where
  | unset
  | ok
  | error (msg : String)
deriving DecidableEq

/-- A span as the wrappers observe it: its name, the chronological log of
attribute writes (an attribute's effective value is the last write, as in
OpenTelemetry), its status, and the exceptions recorded on it.  Passing a
mapping to `set_attributes` is modelled as logging its pairs in order, which
yields the same effective attribute values. -/
structure Span where
  name : String
  attrLog : List (String × Value)
  status : SpanStatus
  exceptions : List PyExc

def Span.setAttr (s : Span) (k : String) (v : Value) : Span :=
  { s with attrLog := s.attrLog ++ [(k, v)] }

def Span.setAttrs (s : Span) (kvs : List (String × Value)) : Span :=
  { s with attrLog := s.attrLog ++ kvs }

def Span.setStatus (s : Span) (st : SpanStatus) : Span :=
  { s with status := st }

def Span.recordException (s : Span) (e : PyExc) : Span :=
  { s with exceptions := s.exceptions ++ [e] }

/-- The effective value of an attribute: the last write wins. -/
def Span.getAttr (s : Span) (k : String) : Option Value :=
  lookupLast s.attrLog k

/-- The ambient OpenTelemetry context as consulted by every wrapper: the
`_SUPPRESS_INSTRUMENTATION_KEY` flag and the attribute pairs returned by
`get_attributes_from_context()`. -/
structure Ctx where
  suppress : Bool
  ambient : List (String × Value)

/-- Modelled from the spec: the attribute-name and span-kind constants
re-exported at the bottom of the module from the external
`openinference.semconv.trace` package (which is not under src); values follow
the OpenInference semantic conventions. -/
def OPENINFERENCE_SPAN_KIND : String := "openinference.span.kind"

def INPUT_VALUE : String := "input.value"

def INPUT_MIME_TYPE : String := "input.mime_type"

def OUTPUT_VALUE : String := "output.value"

def OUTPUT_MIME_TYPE : String := "output.mime_type"

def LLM_INPUT_MESSAGES : String := "llm.input_messages"

def LLM_OUTPUT_MESSAGES : String := "llm.output_messages"

def LLM_INVOCATION_PARAMETERS : String := "llm.invocation_parameters"

def LLM_MODEL_NAME : String := "llm.model_name"

def LLM_TOKEN_COUNT_PROMPT : String := "llm.token_count.prompt"

def LLM_TOKEN_COUNT_COMPLETION : String := "llm.token_count.completion"

def LLM_TOKEN_COUNT_TOTAL : String := "llm.token_count.total"

def LLM_TOOLS : String := "llm.tools"

def MESSAGE_ROLE : String := "message.role"

def MESSAGE_CONTENT : String := "message.content"

def TOOL_JSON_SCHEMA : String := "tool.json_schema"

def TOOL_CALL_FUNCTION_NAME : String := "tool_call.function.name"

def TOOL_CALL_FUNCTION_ARGUMENTS_JSON : String := "tool_call.function.arguments"

def JSON_MIME : String := "application/json"

def AGENT : String := "AGENT"

def CHAIN : String := "CHAIN"

def LLM : String := "LLM"

def TOOL : String := "TOOL"

/-- Read-only view of a managed sub-agent as the Run wrapper reads it
(`managed_agent.name`, `.description`, `.additional_prompting`,
`.agent.model`, `.agent.max_steps`). -/
structure ManagedAgentView where
  name : Value
  description : Value
  additionalPrompting : Value
  modelTypeName : String
  modelId : Option Value
  maxSteps : Int

/-- Read-only view of the intercepted agent instance as the Run wrapper reads
it: class name, `task`, `model` (type name plus optional `model_id`),
`max_steps`, `tools` keys, `managed_agents`, and the monitor token counters as
they stand when read after the wrapped call returns. -/
structure AgentView where
  className : String
  task : String
  modelTypeName : String
  modelId : Option Value
  maxSteps : Int
  toolNames : List String
  managedAgents : List ManagedAgentView
  monitorInputTokens : Int
  monitorOutputTokens : Int

/-- The `json.dumps(additional_args) if additional_args else ""` attribute
value, with `additional_args = kwargs.get("additional_args", None)`. -/
def runAdditionalArgs (kwargs : List (String × Value)) : Except PyExc Value :=
  let aa := (lookupLast kwargs "additional_args").getD Value.vnone
  if pyTruthy aa then (plainDumps aa).map Value.vstr else .ok (Value.vstr "")

/-- The Run wrapper's "model" attribute: the model's type name, plus
`" - <model_id>"` when the model has a `model_id`. -/
def runModelDescription (agent : AgentView) : String :=
  agent.modelTypeName ++ (match agent.modelId with
    | some v => " - " ++ pyStr v
    | none => "")

def stringListValue (names : List String) : Value :=
  Value.vlist (VList.ofList (names.map Value.vstr))

/-- One entry of the Run wrapper's "managed_agents" JSON document.  The
"model" field reproduces the source's conditional-expression precedence: the
whole `type-name + " - " + model_id` string is replaced by `""` when the
managed agent's model has no `model_id`.  The "tools_names" field reads the
outer agent's tools, as the source does. -/
def managedAgentEntry (outerToolNames : List String) (ma : ManagedAgentView) : Value :=
  Value.vmap (.cons "name" ma.name (.cons "description" ma.description
    (.cons "additional_prompting" ma.additionalPrompting
    (.cons "model" (.vstr (match ma.modelId with
        | some v => ma.modelTypeName ++ " - " ++ pyStr v
        | none => ""))
    (.cons "max_steps" (.vint ma.maxSteps)
    (.cons "tools_names" (stringListValue outerToolNames) .nil))))))

/-- The Run wrapper's "managed_agents" attribute: `json.dumps` of the list of
managed-agent summaries. -/
def managedAgentsJson (agent : AgentView) : Except PyExc Value :=
  (plainDumps (Value.vlist (VList.ofList
    (agent.managedAgents.map (managedAgentEntry agent.toolNames))))).map Value.vstr

/-- The `_RunWrapper.__call__` interception (span kind AGENT).  Inputs: the
ambient context, the agent view, the wrapped callable's signature and call
arguments, and the wrapped call's outcome.  Output: the outcome the wrapper
propagates, with the span it built (`none` when suppressed or when the span's
initial attribute computation raised before the span started). -/
def _RunWrapper (ctx : Ctx) (agent : AgentView) (sig : List Param)
    (args : List Value) (kwargs : List (String × Value))
    (call : Except PyExc Value) : Except PyExc Value × Option Span :=
  if ctx.suppress then (call, none) else
  match _get_input_value sig args kwargs with
  | .error e => (.error e, none)
  | .ok inputValue =>
    match _flatten (.vmap (.cons OPENINFERENCE_SPAN_KIND (.vstr AGENT)
        (.cons INPUT_VALUE (.vstr inputValue) .nil))) with
    | .error e => (.error e, none)
    | .ok initAttrs =>
      let s : Span :=
        { name := agent.className ++ ".run", attrLog := initAttrs,
          status := .unset, exceptions := [] }
      let s := s.setAttr INPUT_VALUE (.vstr agent.task)
      let s := s.setAttr "agent_name" (.vstr agent.className)
      let s := s.setAttr "task" (.vstr agent.task)
      match runAdditionalArgs kwargs with
      | .error e => (.error e, some s)
      | .ok aa =>
        let s := s.setAttr "additional_args" aa
        let s := s.setAttr "additional_args" aa
        let s := s.setAttr "model" (.vstr (runModelDescription agent))
        let s := s.setAttr "max_steps" (.vint agent.maxSteps)
        let s := s.setAttr "tools_names" (stringListValue agent.toolNames)
        match managedAgentsJson agent with
        | .error e => (.error e, some s)
        | .ok mj =>
          let s := s.setAttr "managed_agents" mj
          match call with
          | .error e => (.error e, some ((s.setStatus (.error e.msg)).recordException e))
          | .ok output =>
            let s := s.setAttr LLM_TOKEN_COUNT_PROMPT (.vint agent.monitorInputTokens)
            let s := s.setAttr LLM_TOKEN_COUNT_COMPLETION (.vint agent.monitorOutputTokens)
            let s := s.setAttr LLM_TOKEN_COUNT_TOTAL
              (.vint (agent.monitorInputTokens + agent.monitorOutputTokens))
            let s := s.setStatus .ok
            let s := s.setAttr OUTPUT_VALUE (.vstr (pyStr output))
            let s := s.setAttrs ctx.ambient
            (.ok output, some s)

/-- Read-only view of the step log object (`args[0]`, an `ActionStep`) as the
Step wrapper reads it after the wrapped call returns: `error` (`none` models
Python `None`) and `observations`. -/
structure StepLog where
  error : Option Value
  observations : Value

/-- The `_StepWrapper.__call__` interception (span kind CHAIN).  `stepNumber`
is the agent's `step_number` read for the span name; `stepLog` is the step
log passed as the call's first argument.  The source's disabled
(commented-out) branch that would set ERROR status from `step_log.error` is
omitted, matching the executed code. -/
def _StepWrapper (ctx : Ctx) (stepNumber : Int) (stepLog : StepLog)
    (call : Except PyExc Value) : Except PyExc Value × Option Span :=
  if ctx.suppress then (call, none) else
  let s : Span :=
    { name := "Step " ++ toString stepNumber,
      attrLog := [(OPENINFERENCE_SPAN_KIND, .vstr CHAIN)],
      status := .unset, exceptions := [] }
  match call with
  | .error e => (.error e, some ((s.setStatus (.error e.msg)).recordException e))
  | .ok result =>
    let s := if pyIsNone result then s else s.setAttr "Final answer" result
    let s := match stepLog.error with
      | some err => s.setAttr "Error" (.vstr (pyStr err))
      | none => s
    let s := s.setAttr "Observations" stepLog.observations
    let s := s.setStatus .ok
    let s := s.setAttr OUTPUT_VALUE stepLog.observations
    let s := s.setAttrs ctx.ambient
    (.ok result, some s)

/-- The output object returned by the wrapped model call as the Model wrapper
reads it: optional `role` and `content` attributes, the optional
`model_dump_json` method (absent means calling it raises `AttributeError`),
and the object itself as an attribute value. -/
structure OutputMessage where
  role : Option Value
  content : Option Value
  modelDumpJson : Option String
  raw : Value

/-- Read-only view of the model instance as the Model wrapper reads it:
truthiness/class name (`none` models a falsy instance, in which case the span
is named after the wrapped function), `last_input_token_count`,
`last_output_token_count`, `model_id`, and the `kwargs` attribute
(`getattr(model, "kwargs", \x7b\x7d)`). -/
structure ModelView where
  className : Option String
  wrappedName : String
  lastInputTokens : Int
  lastOutputTokens : Int
  modelId : Value
  kwargs : Value

/-- The module's `_input_value_and_mime_type(arguments)` generator. -/
def _input_value_and_mime_type (arguments : List (String × Value)) :
    Except PyExc (List (String × Value)) := do
  let s ← dumpsSafe (.vmap (VMap.ofList arguments))
  pure [(INPUT_MIME_TYPE, .vstr JSON_MIME), (INPUT_VALUE, .vstr s)]

/-- The module's `_llm_invocation_parameters(model, arguments)` generator:
the union of the model's stored `kwargs` mapping and the call's `kwargs`
mapping (call-side entries win), serialized. -/
def _llm_invocation_parameters (model : ModelView) (arguments : List (String × Value)) :
    Except PyExc (List (String × Value)) := do
  let modelKwargs := match model.kwargs with
    | .vmap es => es.toList
    | _ => []
  let callKwargs := match lookupLast arguments "kwargs" with
    | some (.vmap es) => es.toList
    | _ => []
  let s ← dumpsSafe (.vmap (VMap.ofList (pyDict (modelKwargs ++ callKwargs))))
  pure [(LLM_INVOCATION_PARAMETERS, .vstr s)]

/-- The per-message loop of `_llm_input_messages`: non-dict elements are
skipped (but still consume an index); a present, non-`None` `role` or
`content` entry is emitted under `llm.input_messages.<i>.`. -/
def llmInputMessagesFrom (i : Nat) : VList → List (String × Value)
  | .nil => []
  | .cons m tl =>
    (match m with
     | .vmap es =>
        (match lookupLast es.toList "role" with
         | some r =>
            if pyIsNone r then []
            else [(LLM_INPUT_MESSAGES ++ "." ++ toString i ++ "." ++ MESSAGE_ROLE, r)]
         | none => []) ++
        (match lookupLast es.toList "content" with
         | some c =>
            if pyIsNone c then []
            else [(LLM_INPUT_MESSAGES ++ "." ++ toString i ++ "." ++ MESSAGE_CONTENT, c)]
         | none => [])
     | _ => []) ++ llmInputMessagesFrom (i + 1) tl

/-- The module's `_llm_input_messages(arguments)` generator: a string
`prompt` argument synthesizes a single user message; otherwise a `messages`
list argument is walked. -/
def _llm_input_messages (arguments : List (String × Value)) : List (String × Value) :=
  match lookupLast arguments "prompt" with
  | some (.vstr p) =>
      [(LLM_INPUT_MESSAGES ++ ".0." ++ MESSAGE_ROLE, Value.vstr "user"),
       (LLM_INPUT_MESSAGES ++ ".0." ++ MESSAGE_CONTENT, Value.vstr p)]
  | _ =>
    match lookupLast arguments "messages" with
    | some (.vlist msgs) => llmInputMessagesFrom 0 msgs
    | _ => []

/-- The module's `_llm_output_messages(output_message)` generator. -/
def _llm_output_messages (o : OutputMessage) : List (String × Value) :=
  (match o.role with
   | some r => [(LLM_OUTPUT_MESSAGES ++ ".0." ++ MESSAGE_ROLE, r)]
   | none => []) ++
  (match o.content with
   | some c => [(LLM_OUTPUT_MESSAGES ++ ".0." ++ MESSAGE_CONTENT, c)]
   | none => [])

/-- The module's `_output_value_and_mime_type(output)` generator: it calls
`output.model_dump_json()` with no fallback, so an output without that method
raises `AttributeError`. -/
def _output_value_and_mime_type (o : OutputMessage) : Except PyExc (List (String × Value)) :=
  match o.modelDumpJson with
  | some j => .ok [(OUTPUT_MIME_TYPE, .vstr JSON_MIME), (OUTPUT_VALUE, .vstr j)]
  | none => .error attributeErrorModelDumpJson

/-- The per-tool loop of `_llm_tools`.  Modelled from the spec: the external
`smolagents.Tool` class and `get_json_schema` schema extraction are not under
src; a tool is modelled as a mapping value and its extracted JSON schema as
that mapping itself.  Non-tool elements are skipped but consume an index. -/
def llmToolsFrom (i : Nat) : VList → Except PyExc (List (String × Value))
  | .nil => .ok []
  | .cons t tl =>
    match t with
    | .vmap es => do
        let s ← dumpsSafe (.vmap es)
        let rest ← llmToolsFrom (i + 1) tl
        pure ((LLM_TOOLS ++ "." ++ toString i ++ "." ++ TOOL_JSON_SCHEMA, Value.vstr s) :: rest)
    | _ => llmToolsFrom (i + 1) tl

/-- The module's `_llm_tools(tools_to_call_from)` generator: yields nothing
for a non-list argument. -/
def _llm_tools (tools : Value) : Except PyExc (List (String × Value)) :=
  match tools with
  | .vlist items => llmToolsFrom 0 items
  | _ => .ok []

/-- The `_ModelWrapper.__call__` interception (span kind LLM).  The ambient
context attributes are part of the span's initial attribute mapping (they are
merged inside the `start_as_current_span` attributes dict, after the
input-side attributes); the post-call attributes are set after them. -/
def _ModelWrapper (ctx : Ctx) (model : ModelView) (sig : List Param)
    (args : List Value) (kwargs : List (String × Value))
    (call : Except PyExc OutputMessage) : Except PyExc OutputMessage × Option Span :=
  if ctx.suppress then (call, none) else
  match _bind_arguments sig args kwargs with
  | .error e => (.error e, none)
  | .ok arguments =>
    let spanName := match model.className with
      | some c => c ++ ".__call__"
      | none => model.wrappedName
    match _input_value_and_mime_type arguments with
    | .error e => (.error e, none)
    | .ok ivm =>
      match _llm_invocation_parameters model arguments with
      | .error e => (.error e, none)
      | .ok ips =>
        let s : Span :=
          { name := spanName,
            attrLog := [(OPENINFERENCE_SPAN_KIND, .vstr LLM)] ++ ivm ++ ips
              ++ _llm_input_messages arguments ++ ctx.ambient,
            status := .unset, exceptions := [] }
        match call with
        | .error e => (.error e, some ((s.setStatus (.error e.msg)).recordException e))
        | .ok out =>
          let s := s.setAttr LLM_TOKEN_COUNT_PROMPT (.vint model.lastInputTokens)
          let s := s.setAttr LLM_TOKEN_COUNT_COMPLETION (.vint model.lastOutputTokens)
          let s := s.setAttr LLM_MODEL_NAME model.modelId
          let s := s.setAttr LLM_TOKEN_COUNT_TOTAL
            (.vint (model.lastInputTokens + model.lastOutputTokens))
          let s := s.setStatus .ok
          let s := s.setAttr OUTPUT_VALUE out.raw
          let s := s.setAttrs (_llm_output_messages out)
          match _llm_tools ((lookupLast arguments "tools_to_call_from").getD (.vlist .nil)) with
          | .error e => (.error e, some s)
          | .ok toolAttrs =>
            let s := s.setAttrs toolAttrs
            match _output_value_and_mime_type out with
            | .error e => (.error e, some s)
            | .ok ovm =>
              let s := s.setAttrs ovm
              (.ok out, some s)

/-- Read-only view of the tool instance as the ToolCall wrapper reads it:
truthiness/class name for the span name, the wrapped function's name as a
fallback, and `instance.__class__.name` (the tool's declared name). -/
structure ToolView where
  className : Option String
  wrappedName : String
  toolName : Value

/-- The `_ToolCallWrapper.__call__` interception (span kind TOOL).  The
tool-call function name and the raw keyword arguments (plain `json.dumps`)
are set before the wrapped call runs. -/
def _ToolCallWrapper (ctx : Ctx) (tool : ToolView) (sig : List Param)
    (args : List Value) (kwargs : List (String × Value))
    (call : Except PyExc Value) : Except PyExc Value × Option Span :=
  if ctx.suppress then (call, none) else
  let spanName := match tool.className with
    | some c => c
    | none => tool.wrappedName
  match _get_input_value sig args kwargs with
  | .error e => (.error e, none)
  | .ok inputValue =>
    match _flatten (.vmap (.cons OPENINFERENCE_SPAN_KIND (.vstr TOOL)
        (.cons INPUT_VALUE (.vstr inputValue) .nil))) with
    | .error e => (.error e, none)
    | .ok initAttrs =>
      let s : Span :=
        { name := spanName, attrLog := initAttrs, status := .unset, exceptions := [] }
      let s := s.setAttr TOOL_CALL_FUNCTION_NAME (.vstr (pyStr tool.toolName))
      match plainDumps (.vmap (VMap.ofList kwargs)) with
      | .error e => (.error e, some s)
      | .ok kj =>
        let s := s.setAttr TOOL_CALL_FUNCTION_ARGUMENTS_JSON (.vstr kj)
        match call with
        | .error e => (.error e, some ((s.setStatus (.error e.msg)).recordException e))
        | .ok response =>
          let s := s.setStatus .ok
          let s := s.setAttr OUTPUT_VALUE response
          let s := s.setAttrs ctx.ambient
          (.ok response, some s)

theorem eBindOk {α β : Type} (a : α) (f : α → Except PyExc β) :
    (Except.ok a >>= f) = f a := rfl

theorem eBindErr {α β : Type} (e : PyExc) (f : α → Except PyExc β) :
    ((Except.error e : Except PyExc α) >>= f) = Except.error e := rfl

theorem ePure {α : Type} (a : α) : (pure a : Except PyExc α) = Except.ok a := rfl

theorem flatten_vmap (es : VMap) : _flatten (.vmap es) = flattenEntries es := rfl

/-- Flattening a two-entry mapping of plain strings yields exactly those
entries (the initial attribute mapping of the Run and ToolCall wrappers). -/
theorem flatten_two_strings (k1 k2 s1 s2 : String) :
    _flatten (.vmap (.cons k1 (.vstr s1) (.cons k2 (.vstr s2) .nil)))
      = .ok [(k1, .vstr s1), (k2, .vstr s2)] := rfl

theorem lookupLast_append : ∀ (a b : List (String × Value)) (k : String),
    lookupLast (a ++ b) k =
      match lookupLast b k with
      | some v => some v
      | none => lookupLast a k
  | [], b, k => by
      cases h : lookupLast b k <;> simp [lookupLast, h]
  | (k2, v2) :: tl, b, k => by
      have ih := lookupLast_append tl b k
      show (match lookupLast (tl ++ b) k with
            | some v => some v
            | none => if k2 == k then some v2 else none) = _
      rw [ih]
      cases hb : lookupLast b k <;> cases ht : lookupLast tl k <;>
        simp [lookupLast, hb, ht]

theorem lookupLast_eq_none (l : List (String × Value)) (k : String)
    (h : k ∉ l.map Prod.fst) : lookupLast l k = none := by
  induction l with
  | nil => rfl
  | cons p tl ih =>
      obtain ⟨k2, v2⟩ := p
      simp only [List.map_cons, List.mem_cons, not_or] at h
      have hne : (k2 == k) = false :=
        beq_eq_false_iff_ne.mpr (fun hc => h.1 hc.symm)
      simp [lookupLast, ih h.2, hne]

/-- Test fixtures used by the witnesses below. -/
def excBoom : PyExc := ⟨"boom", 42⟩

def agentFix : AgentView :=
  ⟨"CodeAgent", "2+2", "InferenceClientModel", some (.vstr "gpt"), 5, ["search"], [], 10, 5⟩

def sigTask : List Param := [⟨"task", .posOrKw, none⟩]

def modelFix : ModelView :=
  ⟨some "InferenceClientModel", "generate", 3, 4, .vstr "m1", .vmap .nil⟩

def stepLogFix : StepLog := ⟨some (.vstr "step failed"), .vstr "observed"⟩

def toolFix : ToolView := ⟨some "SearchTool", "forward", .vstr "search"⟩

def outFix : OutputMessage :=
  ⟨some (.vstr "assistant"), some (.vstr "hi"), some "\x7b\x7d", .vstr "raw"⟩

def sigAB : List Param := [⟨"a", .posOrKw, none⟩, ⟨"b", .posOrKw, none⟩]

def sigAVarKw : List Param := [⟨"a", .posOrKw, none⟩, ⟨"kwargs", .varKw, none⟩]

/-- C2: for every wrapper and every input, when the suppression flag is
active the wrapper immediately returns the wrapped call's outcome (result or
exception) unchanged, and builds no span: no span construction, argument
binding, or attribute computation happens. -/
theorem suppression_bypasses_wrappers (amb : List (String × Value))
    (agent : AgentView) (rsig : List Param) (rargs : List Value)
    (rkw : List (String × Value)) (rcall : Except PyExc Value)
    (n : Int) (slog : StepLog) (scall : Except PyExc Value)
    (m : ModelView) (msig : List Param) (margs : List Value)
    (mkw : List (String × Value)) (mcall : Except PyExc OutputMessage)
    (t : ToolView) (tsig : List Param) (targs : List Value)
    (tkw : List (String × Value)) (tcall : Except PyExc Value) :
    _RunWrapper ⟨true, amb⟩ agent rsig rargs rkw rcall = (rcall, none)
    ∧ _StepWrapper ⟨true, amb⟩ n slog scall = (scall, none)
    ∧ _ModelWrapper ⟨true, amb⟩ m msig margs mkw mcall = (mcall, none)
    ∧ _ToolCallWrapper ⟨true, amb⟩ t tsig targs tkw tcall = (tcall, none) :=
  ⟨rfl, rfl, rfl, rfl⟩

/-- C4: for the signature `f(a, b)`, the normalized input value of the
positional call `f(x, y)`, the keyword call `f(a=x, b=y)`, and the call
`f(a=x, **\x7b"b": y\x7d)` (whose call-site unpacking merges into the keyword
mapping) are identical; and for the signature `f(a, **kwargs)`, keyword
arguments captured by the variadic container are merged into the top level,
producing the same normalized value as the plain `f(a, b)` signature. -/
theorem input_value_argument_order_invariant (x y : Value) :
    _get_input_value sigAB [x, y] [] = _get_input_value sigAB [] [("a", x), ("b", y)]
    ∧ _get_input_value sigAB [] (pyDict ([("a", x)] ++ [("b", y)]))
      = _get_input_value sigAB [] [("a", x), ("b", y)]
    ∧ _get_input_value sigAVarKw [] [("a", x), ("b", y)]
      = _get_input_value sigAB [] [("a", x), ("b", y)] :=
  ⟨rfl, rfl, rfl⟩

/-- C3 counterexample: `json.dumps(x, cls=SafeJSONEncoder)` raises for an
object whose duck-typed `dict()` export itself raises: the encoder's
`except TypeError` only guards the standard encoder, so the exception raised
by `o.dict()` propagates instead of a string being returned. -/
theorem safe_encoder_raises_when_dict_export_raises :
    dumpsSafe (.vobjDictRaises ⟨"dict export failed", 7⟩ "FailingModel()")
      = .error ⟨"dict export failed", 7⟩ := rfl

mutual
theorem dumpsSafeTotalAux : ∀ v : Value, dictSafe v = true → ∃ s, dumpsSafe v = .ok s
  | .vnone, _ => ⟨_, rfl⟩
  | .vint _, _ => ⟨_, rfl⟩
  | .vbool _, _ => ⟨_, rfl⟩
  | .vstr _, _ => ⟨_, rfl⟩
  | .venum _ _, _ => ⟨_, rfl⟩
  | .vobj _, _ => ⟨_, rfl⟩
  | .vobjDict d _, h => by
      obtain ⟨s, hs⟩ := dumpsSafeTotalAux d (by simpa [dictSafe] using h)
      exact ⟨s, by simpa [dumpsSafe] using hs⟩
  | .vobjDictRaises _ _, h => by simp [dictSafe] at h
  | .vlist xs, h => by
      obtain ⟨parts, hp⟩ := dumpsSafeListTotalAux xs (by simpa [dictSafe] using h)
      refine ⟨"[" ++ String.intercalate ", " parts ++ "]", ?_⟩
      simp [dumpsSafe, hp, eBindOk, ePure]
  | .vmap es, h => by
      obtain ⟨parts, hp⟩ := dumpsSafeMapTotalAux es (by simpa [dictSafe] using h)
      refine ⟨"\x7b" ++ String.intercalate ", " parts ++ "\x7d", ?_⟩
      simp [dumpsSafe, hp, eBindOk, ePure]

theorem dumpsSafeListTotalAux : ∀ xs : VList, dictSafeList xs = true → ∃ l, dumpsSafeList xs = .ok l
  | .nil, _ => ⟨_, rfl⟩
  | .cons v tl, h => by
      have h12 : dictSafe v = true ∧ dictSafeList tl = true := by
        simpa [dictSafeList] using h
      obtain ⟨s, hs⟩ := dumpsSafeTotalAux v h12.1
      obtain ⟨l, hl⟩ := dumpsSafeListTotalAux tl h12.2
      refine ⟨s :: l, ?_⟩
      simp [dumpsSafeList, hs, hl, eBindOk, ePure]

theorem dumpsSafeMapTotalAux : ∀ es : VMap, dictSafeMap es = true → ∃ l, dumpsSafeMap es = .ok l
  | .nil, _ => ⟨_, rfl⟩
  | .cons k v tl, h => by
      have h12 : dictSafe v = true ∧ dictSafeMap tl = true := by
        simpa [dictSafeMap] using h
      obtain ⟨s, hs⟩ := dumpsSafeTotalAux v h12.1
      obtain ⟨l, hl⟩ := dumpsSafeMapTotalAux tl h12.2
      refine ⟨(jsonQuote k ++ ": " ++ s) :: l, ?_⟩
      simp [dumpsSafeMap, hs, hl, eBindOk, ePure]
end

/-- C3 amended: the encoder falls back from standard serialization to a
duck-typed `dict()` export and otherwise to the printable representation, and
it is total on every value none of whose reachable `dict()` exports raises;
but when a `dict()` export raises, that exception propagates (see the
counterexample), so totality holds only under that condition. -/
theorem safe_encoder_total_when_dict_exports_safe (v : Value) (h : dictSafe v = true) :
    (∃ s, dumpsSafe v = .ok s)
    ∧ (∀ d r, dumpsSafe (.vobjDict d r) = dumpsSafe d)
    ∧ (∀ r, dumpsSafe (.vobj r) = .ok (jsonQuote r)) :=
  ⟨dumpsSafeTotalAux v h, fun _ _ => rfl, fun _ => rfl⟩

/-- Witness for the C3 amended theorem at a concrete object whose `dict()`
export returns a mapping. -/
theorem safe_encoder_total_when_dict_exports_safe_witness :
    dictSafe (.vobjDict (.vmap (.cons "a" (.vint 1) .nil)) "M()") = true
    ∧ ((∃ s, dumpsSafe (.vobjDict (.vmap (.cons "a" (.vint 1) .nil)) "M()") = .ok s)
      ∧ (∀ d r, dumpsSafe (.vobjDict d r) = dumpsSafe d)
      ∧ (∀ r, dumpsSafe (.vobj r) = .ok (jsonQuote r))) :=
  ⟨rfl, safe_encoder_total_when_dict_exports_safe _ rfl⟩

/-- Flattening a concatenation of mapping entries yields the concatenation of
the flattenings (the generator yields entries left to right, and an exception
raised while flattening an earlier entry short-circuits the rest). -/
theorem flattenEntries_append : ∀ (a b : VMap),
    flattenEntries (a.append b) =
      (do
        let xs ← flattenEntries a
        let ys ← flattenEntries b
        pure (xs ++ ys))
  | .nil, b => by
      cases h : flattenEntries b <;>
        simp [VMap.append, flattenEntries, h, eBindOk, eBindErr, ePure]
  | .cons k v tl, b => by
      have ih := flattenEntries_append tl b
      cases v with
      | vnone =>
          cases h1 : flattenEntries tl with
          | error e1 =>
              simp only [h1, eBindErr] at ih
              simp [VMap.append, flattenEntries, ih, h1, eBindErr]
          | ok ys =>
              cases h2 : flattenEntries b with
              | error e2 =>
                  simp only [h1, h2, eBindOk, eBindErr] at ih
                  simp [VMap.append, flattenEntries, ih, h1, h2, eBindOk, eBindErr]
              | ok zs =>
                  simp only [h1, h2, eBindOk, ePure] at ih
                  simp [VMap.append, flattenEntries, ih, h1, h2, eBindOk, ePure]
      | vmap sub =>
          cases h3 : flattenEntries sub with
          | error e3 =>
              simp [VMap.append, flattenEntries, h3, eBindErr]
          | ok xs =>
              cases h1 : flattenEntries tl with
              | error e1 =>
                  simp only [h1, eBindErr] at ih
                  simp [VMap.append, flattenEntries, ih, h1, h3, eBindOk, eBindErr]
              | ok ys =>
                  cases h2 : flattenEntries b with
                  | error e2 =>
                      simp only [h1, h2, eBindOk, eBindErr] at ih
                      simp [VMap.append, flattenEntries, ih, h1, h2, h3, eBindOk, eBindErr]
                  | ok zs =>
                      simp only [h1, h2, eBindOk, ePure] at ih
                      simp [VMap.append, flattenEntries, ih, h1, h2, h3, eBindOk, ePure,
                        List.append_assoc]
      | vlist items =>
          by_cases ha : items.anyMapping = true
          · cases h3 : flattenSeq k 0 items with
            | error e3 =>
                simp [VMap.append, flattenEntries, ha, h3, eBindErr]
            | ok xs =>
                cases h1 : flattenEntries tl with
                | error e1 =>
                    simp only [h1, eBindErr] at ih
                    simp [VMap.append, flattenEntries, ih, ha, h1, h3, eBindOk, eBindErr]
                | ok ys =>
                    cases h2 : flattenEntries b with
                    | error e2 =>
                        simp only [h1, h2, eBindOk, eBindErr] at ih
                        simp [VMap.append, flattenEntries, ih, ha, h1, h2, h3, eBindOk,
                          eBindErr]
                    | ok zs =>
                        simp only [h1, h2, eBindOk, ePure] at ih
                        simp [VMap.append, flattenEntries, ih, ha, h1, h2, h3, eBindOk,
                          ePure, List.append_assoc]
          · cases h1 : flattenEntries tl with
            | error e1 =>
                simp only [h1, eBindErr] at ih
                simp [VMap.append, flattenEntries, ih, ha, h1, eBindErr]
            | ok ys =>
                cases h2 : flattenEntries b with
                | error e2 =>
                    simp only [h1, h2, eBindOk, eBindErr] at ih
                    simp [VMap.append, flattenEntries, ih, ha, h1, h2, eBindOk, eBindErr]
                | ok zs =>
                    simp only [h1, h2, eBindOk, ePure] at ih
                    simp [VMap.append, flattenEntries, ih, ha, h1, h2, eBindOk, ePure]
      | vint n =>
          cases h1 : flattenEntries tl with
          | error e1 =>
              simp only [h1, eBindErr] at ih
              simp [VMap.append, flattenEntries, ih, h1, eBindErr]
          | ok ys =>
              cases h2 : flattenEntries b with
              | error e2 =>
                  simp only [h1, h2, eBindOk, eBindErr] at ih
                  simp [VMap.append, flattenEntries, ih, h1, h2, eBindOk, eBindErr]
              | ok zs =>
                  simp only [h1, h2, eBindOk, ePure] at ih
                  simp [VMap.append, flattenEntries, ih, h1, h2, eBindOk, ePure]
      | vbool bb =>
          cases h1 : flattenEntries tl with
          | error e1 =>
              simp only [h1, eBindErr] at ih
              simp [VMap.append, flattenEntries, ih, h1, eBindErr]
          | ok ys =>
              cases h2 : flattenEntries b with
              | error e2 =>
                  simp only [h1, h2, eBindOk, eBindErr] at ih
                  simp [VMap.append, flattenEntries, ih, h1, h2, eBindOk, eBindErr]
              | ok zs =>
                  simp only [h1, h2, eBindOk, ePure] at ih
                  simp [VMap.append, flattenEntries, ih, h1, h2, eBindOk, ePure]
      | vstr ss =>
          cases h1 : flattenEntries tl with
          | error e1 =>
              simp only [h1, eBindErr] at ih
              simp [VMap.append, flattenEntries, ih, h1, eBindErr]
          | ok ys =>
              cases h2 : flattenEntries b with
              | error e2 =>
                  simp only [h1, h2, eBindOk, eBindErr] at ih
                  simp [VMap.append, flattenEntries, ih, h1, h2, eBindOk, eBindErr]
              | ok zs =>
                  simp only [h1, h2, eBindOk, ePure] at ih
                  simp [VMap.append, flattenEntries, ih, h1, h2, eBindOk, ePure]
      | venum u r =>
          cases h1 : flattenEntries tl with
          | error e1 =>
              simp only [h1, eBindErr] at ih
              simp [VMap.append, flattenEntries, ih, h1, eBindErr]
          | ok ys =>
              cases h2 : flattenEntries b with
              | error e2 =>
                  simp only [h1, h2, eBindOk, eBindErr] at ih
                  simp [VMap.append, flattenEntries, ih, h1, h2, eBindOk, eBindErr]
              | ok zs =>
                  simp only [h1, h2, eBindOk, ePure] at ih
                  simp [VMap.append, flattenEntries, ih, h1, h2, eBindOk, ePure]
      | vobj r =>
          cases h1 : flattenEntries tl with
          | error e1 =>
              simp only [h1, eBindErr] at ih
              simp [VMap.append, flattenEntries, ih, h1, eBindErr]
          | ok ys =>
              cases h2 : flattenEntries b with
              | error e2 =>
                  simp only [h1, h2, eBindOk, eBindErr] at ih
                  simp [VMap.append, flattenEntries, ih, h1, h2, eBindOk, eBindErr]
              | ok zs =>
                  simp only [h1, h2, eBindOk, ePure] at ih
                  simp [VMap.append, flattenEntries, ih, h1, h2, eBindOk, ePure]
      | vobjDict d r =>
          cases h1 : flattenEntries tl with
          | error e1 =>
              simp only [h1, eBindErr] at ih
              simp [VMap.append, flattenEntries, ih, h1, eBindErr]
          | ok ys =>
              cases h2 : flattenEntries b with
              | error e2 =>
                  simp only [h1, h2, eBindOk, eBindErr] at ih
                  simp [VMap.append, flattenEntries, ih, h1, h2, eBindOk, eBindErr]
              | ok zs =>
                  simp only [h1, h2, eBindOk, ePure] at ih
                  simp [VMap.append, flattenEntries, ih, h1, h2, eBindOk, ePure]
      | vobjDictRaises ex r =>
          cases h1 : flattenEntries tl with
          | error e1 =>
              simp only [h1, eBindErr] at ih
              simp [VMap.append, flattenEntries, ih, h1, eBindErr]
          | ok ys =>
              cases h2 : flattenEntries b with
              | error e2 =>
                  simp only [h1, h2, eBindOk, eBindErr] at ih
                  simp [VMap.append, flattenEntries, ih, h1, h2, eBindOk, eBindErr]
              | ok zs =>
                  simp only [h1, h2, eBindOk, ePure] at ih
                  simp [VMap.append, flattenEntries, ih, h1, h2, eBindOk, ePure]

/-- C5: for every mapping, an entry whose value is the absent marker `None`
produces no attribute (flattening is unchanged when the entry is removed),
and an entry whose value is a nested mapping produces exactly the recursively
flattened entries of that sub-mapping, each key prefixed with the outer key
and a dot, in place. -/
theorem flatten_skips_absent_and_prefixes_nested (k : String) (pre rest sub : VMap) :
    _flatten (.vmap (pre.append (.cons k .vnone rest))) = _flatten (.vmap (pre.append rest))
    ∧ _flatten (.vmap (pre.append (.cons k (.vmap sub) rest))) =
        (do
          let ps ← _flatten (.vmap pre)
          let xs ← _flatten (.vmap sub)
          let ys ← _flatten (.vmap rest)
          pure (ps ++ xs.map (fun p => (k ++ "." ++ p.1, p.2)) ++ ys)) := by
  constructor
  · simp only [flatten_vmap, flattenEntries_append]
    rfl
  · simp only [flatten_vmap, flattenEntries_append]
    cases hp : flattenEntries pre with
    | error e => simp [eBindErr]
    | ok ps =>
      cases hs : flattenEntries sub with
      | error e => simp [flattenEntries, hs, eBindOk, eBindErr]
      | ok xs =>
        cases hr : flattenEntries rest with
        | error e => simp [flattenEntries, hs, hr, eBindOk, eBindErr]
        | ok ys => simp [flattenEntries, hs, hr, eBindOk, ePure, List.append_assoc]

/-- One element's contribution in the sequence branch of `_flatten`: the
element at `enumFrom` position `p.1` is itself flattened and its yields are
prefixed with `k.<index>.`. -/
def flattenChunk (k : String) (p : Nat × Value) : Except PyExc (List (String × Value)) := do
  let xs ← _flatten p.2
  pure (xs.map (fun q => (k ++ "." ++ toString p.1 ++ "." ++ q.1, q.2)))

/-- Effectful map over a list in the `Except` monad (the standard `mapM`,
written out so that it unfolds transparently). -/
def exceptMapList {α β : Type} (f : α → Except PyExc β) : List α → Except PyExc (List β)
  | [] => .ok []
  | a :: l => do
      let b ← f a
      let bs ← exceptMapList f l
      pure (b :: bs)

/-- The sequence branch of `_flatten`, re-expressed through `List.enumFrom`:
each element is flattened in order, its yields prefixed with its index. -/
theorem flattenSeq_eq_enumFrom : ∀ (items : VList) (k : String) (i : Nat),
    flattenSeq k i items =
      (do
        let chunks ← exceptMapList (flattenChunk k) (items.toList.enumFrom i)
        pure chunks.flatten)
  | .nil, k, i => by
      simp [flattenSeq, VList.toList, List.enumFrom, exceptMapList, ePure, eBindOk]
  | .cons v vs, k, i => by
      have ih := flattenSeq_eq_enumFrom vs k (i + 1)
      cases hv : _flatten v with
      | error e =>
          simp [flattenSeq, VList.toList, List.enumFrom_cons, exceptMapList, flattenChunk,
            hv, eBindErr, eBindOk]
      | ok xs =>
          cases hm : exceptMapList (flattenChunk k) (vs.toList.enumFrom (i + 1)) with
          | error e =>
              rw [hm] at ih
              simp only [eBindErr] at ih
              simp [flattenSeq, VList.toList, List.enumFrom_cons, exceptMapList,
                flattenChunk, hv, hm, ih, eBindErr, eBindOk]
          | ok chunks =>
              rw [hm] at ih
              simp only [eBindOk, ePure] at ih
              simp [flattenSeq, VList.toList, List.enumFrom_cons, exceptMapList,
                flattenChunk, hv, hm, ih, eBindOk, ePure]

/-- C6 counterexample: a mixed sequence of a mapping and a truthy non-mapping
does not flatten without error: the non-mapping element is passed back
through `_flatten`, which reaches `mapping.items()` on it and raises
`AttributeError`, so the claim's "flattens without error" fails at
`\x7b"k": [\x7b"a": 1\x7d, 5]\x7d`. -/
theorem flatten_mixed_sequence_raises :
    _flatten (.vmap (.cons "k" (.vlist (.cons (.vmap (.cons "a" (.vint 1) .nil))
        (.cons (.vint 5) .nil))) .nil))
      = .error attributeErrorItems := rfl

/-- C6 amended: for a mapping entry whose value is a sequence containing at
least one mapping, every element is processed in original sequence order by
recursively flattening the element itself under keys `<key>.<index>.`; a
non-mapping element is not handled like a singleton value: a truthy
non-mapping element raises `AttributeError` (a falsy one yields nothing). -/
theorem flatten_sequence_elements_in_order (k : String) (items : VList) (rest : VMap)
    (h : items.anyMapping = true) :
    _flatten (.vmap (.cons k (.vlist items) rest)) =
      (do
        let chunks ← exceptMapList (flattenChunk k) (items.toList.enumFrom 0)
        let ys ← _flatten (.vmap rest)
        pure (chunks.flatten ++ ys)) := by
  rw [flatten_vmap]
  have hseq := flattenSeq_eq_enumFrom items k 0
  simp only [flattenEntries, h, if_true]
  rw [hseq]
  cases hm : exceptMapList (flattenChunk k) (items.toList.enumFrom 0) with
  | error e => simp [flatten_vmap, hm, eBindErr]
  | ok chunks =>
      cases hr : flattenEntries rest with
      | error e => simp [flatten_vmap, hm, hr, eBindOk, eBindErr, ePure]
      | ok ys => simp [flatten_vmap, hm, hr, eBindOk, ePure]

/-- Witness for the C6 amended theorem: a two-element sequence of mappings
flattens to `k.0.a` and `k.1.b` in order. -/
theorem flatten_sequence_elements_in_order_witness :
    (VList.cons (.vmap (.cons "a" (.vint 1) .nil))
        (.cons (.vmap (.cons "b" (.vint 2) .nil)) .nil)).anyMapping = true
    ∧ _flatten (.vmap (.cons "k" (.vlist (VList.cons (.vmap (.cons "a" (.vint 1) .nil))
        (.cons (.vmap (.cons "b" (.vint 2) .nil)) .nil))) .nil)) =
      (do
        let chunks ← exceptMapList (flattenChunk "k")
          (((VList.cons (.vmap (.cons "a" (.vint 1) .nil))
            (.cons (.vmap (.cons "b" (.vint 2) .nil)) .nil)).toList.enumFrom 0))
        let ys ← _flatten (.vmap .nil)
        pure (chunks.flatten ++ ys)) :=
  ⟨rfl, flatten_sequence_elements_in_order "k" _ .nil rfl⟩

/-- C1: in every one of the four wrappers, when the wrapped call raises, the
wrapper sets the span status to ERROR carrying the exception's message,
records the exception object on the span, and re-raises the identical
exception object unchanged (the propagated outcome is the very same `PyExc`,
never suppressed, converted, or replaced).  The hypotheses state that the
pre-call attribute computations succeed, i.e. the wrapped call is reached. -/
theorem wrappers_record_and_reraise_exceptions
    (e : PyExc) (amb : List (String × Value))
    (agent : AgentView) (rsig : List Param) (rargs : List Value)
    (rkw : List (String × Value)) (riv : String) (raa mj : Value)
    (hiv : _get_input_value rsig rargs rkw = .ok riv)
    (haa : runAdditionalArgs rkw = .ok raa)
    (hmj : managedAgentsJson agent = .ok mj)
    (n : Int) (slog : StepLog)
    (m : ModelView) (msig : List Param) (margs : List Value)
    (mkw : List (String × Value)) (bargs ivm ips : List (String × Value))
    (hb : _bind_arguments msig margs mkw = .ok bargs)
    (hivm : _input_value_and_mime_type bargs = .ok ivm)
    (hips : _llm_invocation_parameters m bargs = .ok ips)
    (t : ToolView) (tsig : List Param) (targs : List Value)
    (tkw : List (String × Value)) (tiv kj : String)
    (htiv : _get_input_value tsig targs tkw = .ok tiv)
    (hkj : plainDumps (.vmap (VMap.ofList tkw)) = .ok kj) :
    (∃ s, _RunWrapper ⟨false, amb⟩ agent rsig rargs rkw (.error e) = (.error e, some s)
      ∧ s.status = .error e.msg ∧ s.exceptions = [e])
    ∧ (∃ s, _StepWrapper ⟨false, amb⟩ n slog (.error e) = (.error e, some s)
      ∧ s.status = .error e.msg ∧ s.exceptions = [e])
    ∧ (∃ s, _ModelWrapper ⟨false, amb⟩ m msig margs mkw (.error e) = (.error e, some s)
      ∧ s.status = .error e.msg ∧ s.exceptions = [e])
    ∧ (∃ s, _ToolCallWrapper ⟨false, amb⟩ t tsig targs tkw (.error e) = (.error e, some s)
      ∧ s.status = .error e.msg ∧ s.exceptions = [e]) := by
  refine ⟨?_, ?_, ?_, ?_⟩
  · simp only [_RunWrapper, hiv, haa, hmj, flatten_two_strings]
    exact ⟨_, rfl, rfl, rfl⟩
  · exact ⟨_, rfl, rfl, rfl⟩
  · simp only [_ModelWrapper, _bind_arguments] at *
    simp only [hb, hivm, hips]
    exact ⟨_, rfl, rfl, rfl⟩
  · simp only [_ToolCallWrapper, htiv, hkj, flatten_two_strings]
    exact ⟨_, rfl, rfl, rfl⟩

/-- Witness for C1 at concrete inputs: a `run(task="2+2")` agent call, a step
call, a model call, and a tool call, each raising `excBoom`. -/
theorem wrappers_record_and_reraise_exceptions_witness :
    _get_input_value sigTask [.vstr "2+2"] [] = .ok "\x7b\"task\": \"2+2\"\x7d"
    ∧ runAdditionalArgs [] = .ok (.vstr "")
    ∧ managedAgentsJson agentFix = .ok (.vstr "[]")
    ∧ _bind_arguments [] [] [] = .ok []
    ∧ _input_value_and_mime_type [] =
        .ok [(INPUT_MIME_TYPE, .vstr JSON_MIME), (INPUT_VALUE, .vstr "\x7b\x7d")]
    ∧ _llm_invocation_parameters modelFix [] = .ok [(LLM_INVOCATION_PARAMETERS, .vstr "\x7b\x7d")]
    ∧ _get_input_value [] [] [] = .ok "\x7b\x7d"
    ∧ plainDumps (.vmap (VMap.ofList [])) = .ok "\x7b\x7d"
    ∧ ((∃ s, _RunWrapper ⟨false, []⟩ agentFix sigTask [.vstr "2+2"] [] (.error excBoom)
          = (.error excBoom, some s)
        ∧ s.status = .error excBoom.msg ∧ s.exceptions = [excBoom])
      ∧ (∃ s, _StepWrapper ⟨false, []⟩ 1 stepLogFix (.error excBoom) = (.error excBoom, some s)
        ∧ s.status = .error excBoom.msg ∧ s.exceptions = [excBoom])
      ∧ (∃ s, _ModelWrapper ⟨false, []⟩ modelFix [] [] [] (.error excBoom)
          = (.error excBoom, some s)
        ∧ s.status = .error excBoom.msg ∧ s.exceptions = [excBoom])
      ∧ (∃ s, _ToolCallWrapper ⟨false, []⟩ toolFix [] [] [] (.error excBoom)
          = (.error excBoom, some s)
        ∧ s.status = .error excBoom.msg ∧ s.exceptions = [excBoom])) :=
  ⟨rfl, rfl, rfl, rfl, rfl, rfl, rfl, rfl,
    wrappers_record_and_reraise_exceptions excBoom [] agentFix sigTask [.vstr "2+2"] []
      "\x7b\"task\": \"2+2\"\x7d" (.vstr "") (.vstr "[]") rfl rfl rfl 1 stepLogFix modelFix
      [] [] [] [] [(INPUT_MIME_TYPE, .vstr JSON_MIME), (INPUT_VALUE, .vstr "\x7b\x7d")]
      [(LLM_INVOCATION_PARAMETERS, .vstr "\x7b\x7d")] rfl rfl rfl toolFix [] [] []
      "\x7b\x7d" "\x7b\x7d" rfl rfl⟩

/-- An output object with no `model_dump_json` method (e.g. a plain string
returned by the wrapped model call). -/
def plainOutput : OutputMessage := ⟨none, none, none, .vstr "plain text output"⟩

/-- C8 counterexample: after a successful wrapped model call whose output has
no `model_dump_json` method, the Model wrapper's post-call attribute
computation (`_output_value_and_mime_type`) raises `AttributeError`, which
surfaces to the caller in place of the call's successful result — so the
post-call attribute computation is not total. -/
theorem model_wrapper_raises_after_successful_call :
    (_ModelWrapper ⟨false, []⟩ modelFix [] [] [] (.ok plainOutput)).1
      = .error attributeErrorModelDumpJson := rfl

/-- C8 amended: after a successful wrapped call, the post-call attribute
computation of the Run, Step, and ToolInvocation wrappers is total (the
wrapped call's result is always propagated unchanged); in the Model wrapper
it is total except that output serialization calls the output's
`model_dump_json` method with no fallback, so it propagates the result only
when that method is present (and, in this model, when the modelled
tool-schema serialization succeeds) — an output without the method raises an
`AttributeError` that surfaces to the caller (see the counterexample). -/
theorem post_call_attribute_computation_totality
    (amb : List (String × Value))
    (agent : AgentView) (rsig : List Param) (rargs : List Value)
    (rkw : List (String × Value)) (riv : String) (raa mj : Value) (rout : Value)
    (hiv : _get_input_value rsig rargs rkw = .ok riv)
    (haa : runAdditionalArgs rkw = .ok raa)
    (hmj : managedAgentsJson agent = .ok mj)
    (n : Int) (slog : StepLog) (sres : Value)
    (m : ModelView) (msig : List Param) (margs : List Value)
    (mkw : List (String × Value)) (bargs ivm ips ta : List (String × Value))
    (out : OutputMessage) (j : String)
    (hb : _bind_arguments msig margs mkw = .ok bargs)
    (hivm : _input_value_and_mime_type bargs = .ok ivm)
    (hips : _llm_invocation_parameters m bargs = .ok ips)
    (hta : _llm_tools ((lookupLast bargs "tools_to_call_from").getD (.vlist .nil)) = .ok ta)
    (hdump : out.modelDumpJson = some j)
    (t : ToolView) (tsig : List Param) (targs : List Value)
    (tkw : List (String × Value)) (tiv kj : String) (tres : Value)
    (htiv : _get_input_value tsig targs tkw = .ok tiv)
    (hkj : plainDumps (.vmap (VMap.ofList tkw)) = .ok kj) :
    (_RunWrapper ⟨false, amb⟩ agent rsig rargs rkw (.ok rout)).1 = .ok rout
    ∧ (_StepWrapper ⟨false, amb⟩ n slog (.ok sres)).1 = .ok sres
    ∧ (_ModelWrapper ⟨false, amb⟩ m msig margs mkw (.ok out)).1 = .ok out
    ∧ (_ToolCallWrapper ⟨false, amb⟩ t tsig targs tkw (.ok tres)).1 = .ok tres := by
  refine ⟨?_, rfl, ?_, ?_⟩
  · simp only [_RunWrapper, hiv, haa, hmj, flatten_two_strings]
    rfl
  · simp only [_ModelWrapper, hb, hivm, hips, hta, _output_value_and_mime_type, hdump]
    rfl
  · simp only [_ToolCallWrapper, htiv, hkj, flatten_two_strings]
    rfl

/-- Witness for the C8 amended theorem at concrete inputs (the model output
carries a `model_dump_json` method). -/
theorem post_call_attribute_computation_totality_witness :
    _get_input_value sigTask [.vstr "2+2"] [] = .ok "\x7b\"task\": \"2+2\"\x7d"
    ∧ runAdditionalArgs [] = .ok (.vstr "")
    ∧ managedAgentsJson agentFix = .ok (.vstr "[]")
    ∧ _bind_arguments [] [] [] = .ok []
    ∧ _input_value_and_mime_type [] =
        .ok [(INPUT_MIME_TYPE, .vstr JSON_MIME), (INPUT_VALUE, .vstr "\x7b\x7d")]
    ∧ _llm_invocation_parameters modelFix [] = .ok [(LLM_INVOCATION_PARAMETERS, .vstr "\x7b\x7d")]
    ∧ _llm_tools ((lookupLast [] "tools_to_call_from").getD (.vlist .nil)) = .ok []
    ∧ outFix.modelDumpJson = some "\x7b\x7d"
    ∧ _get_input_value [] [] [] = .ok "\x7b\x7d"
    ∧ plainDumps (.vmap (VMap.ofList [])) = .ok "\x7b\x7d"
    ∧ ((_RunWrapper ⟨false, []⟩ agentFix sigTask [.vstr "2+2"] [] (.ok (.vint 4))).1
        = .ok (.vint 4)
      ∧ (_StepWrapper ⟨false, []⟩ 1 stepLogFix (.ok (.vstr "done"))).1 = .ok (.vstr "done")
      ∧ (_ModelWrapper ⟨false, []⟩ modelFix [] [] [] (.ok outFix)).1 = .ok outFix
      ∧ (_ToolCallWrapper ⟨false, []⟩ toolFix [] [] [] (.ok (.vstr "result"))).1
        = .ok (.vstr "result")) :=
  ⟨rfl, rfl, rfl, rfl, rfl, rfl, rfl, rfl, rfl, rfl,
    post_call_attribute_computation_totality [] agentFix sigTask [.vstr "2+2"] []
      "\x7b\"task\": \"2+2\"\x7d" (.vstr "") (.vstr "[]") (.vint 4) rfl rfl rfl 1 stepLogFix
      (.vstr "done") modelFix [] [] [] []
      [(INPUT_MIME_TYPE, .vstr JSON_MIME), (INPUT_VALUE, .vstr "\x7b\x7d")]
      [(LLM_INVOCATION_PARAMETERS, .vstr "\x7b\x7d")] [] outFix "\x7b\x7d" rfl rfl rfl rfl
      rfl toolFix [] [] [] "\x7b\x7d" "\x7b\x7d" (.vstr "result") rfl rfl⟩

/-- C9: when the wrapped step call returns normally but the step log records
a non-absent error, the Step wrapper sets the "Error" attribute to the error
text and still finishes with status OK (the disabled error-status branch is
not executed), and the span's output value equals the step log's observation
text.  The ambient-context hypothesis reflects that context attributes never
carry the output-value key. -/
theorem step_error_attribute_and_ok_status
    (amb : List (String × Value)) (n : Int) (slog : StepLog) (res errv : Value)
    (herr : slog.error = some errv)
    (hamb : lookupLast amb OUTPUT_VALUE = none) :
    ∃ s, _StepWrapper ⟨false, amb⟩ n slog (.ok res) = (.ok res, some s)
      ∧ s.status = .ok
      ∧ ("Error", .vstr (pyStr errv)) ∈ s.attrLog
      ∧ s.getAttr OUTPUT_VALUE = some slog.observations := by
  cases hn : pyIsNone res with
  | true =>
      simp only [_StepWrapper, herr, hn]
      refine ⟨_, rfl, rfl, ?_, ?_⟩
      · simp [Span.setAttr, Span.setAttrs, Span.setStatus]
      · simp [Span.getAttr, Span.setAttr, Span.setAttrs, Span.setStatus, lookupLast, hamb]
  | false =>
      simp only [_StepWrapper, herr, hn]
      refine ⟨_, rfl, rfl, ?_, ?_⟩
      · simp [Span.setAttr, Span.setAttrs, Span.setStatus]
      · simp [Span.getAttr, Span.setAttr, Span.setAttrs, Span.setStatus, lookupLast, hamb]

/-- Witness for C9: a step whose log records an error and observations. -/
theorem step_error_attribute_and_ok_status_witness :
    stepLogFix.error = some (.vstr "step failed")
    ∧ lookupLast [] OUTPUT_VALUE = none
    ∧ (∃ s, _StepWrapper ⟨false, []⟩ 2 stepLogFix (.ok (.vstr "fin")) = (.ok (.vstr "fin"), some s)
      ∧ s.status = .ok
      ∧ ("Error", .vstr (pyStr (.vstr "step failed"))) ∈ s.attrLog
      ∧ s.getAttr OUTPUT_VALUE = some stepLogFix.observations) :=
  ⟨rfl, rfl, step_error_attribute_and_ok_status [] 2 stepLogFix (.vstr "fin")
    (.vstr "step failed") rfl rfl⟩

/-- C10: the Run wrapper's span opens with the input-value attribute set to
the serialized normalized call arguments and then unconditionally overwrites
it with the agent's raw task text before the wrapped call runs; so in both
the success and the failure interception the serialized-arguments write is in
the span's attribute log, and the effective input-value attribute is the task
text.  The ambient-context hypothesis reflects that context attributes never
carry the input-value key. -/
theorem run_input_value_is_task
    (amb : List (String × Value)) (agent : AgentView) (rsig : List Param)
    (rargs : List Value) (rkw : List (String × Value)) (riv : String)
    (raa mj : Value) (out : Value) (e : PyExc)
    (hiv : _get_input_value rsig rargs rkw = .ok riv)
    (haa : runAdditionalArgs rkw = .ok raa)
    (hmj : managedAgentsJson agent = .ok mj)
    (hamb : lookupLast amb INPUT_VALUE = none) :
    (∃ s, (_RunWrapper ⟨false, amb⟩ agent rsig rargs rkw (.ok out)).2 = some s
      ∧ s.getAttr INPUT_VALUE = some (.vstr agent.task)
      ∧ (INPUT_VALUE, .vstr riv) ∈ s.attrLog)
    ∧ (∃ s, (_RunWrapper ⟨false, amb⟩ agent rsig rargs rkw (.error e)).2 = some s
      ∧ s.getAttr INPUT_VALUE = some (.vstr agent.task)
      ∧ (INPUT_VALUE, .vstr riv) ∈ s.attrLog) := by
  have hamb2 : lookupLast amb "input.value" = none := hamb
  constructor
  · simp only [_RunWrapper, hiv, haa, hmj, flatten_two_strings]
    refine ⟨_, rfl, ?_, ?_⟩
    · simp [Span.getAttr, Span.setAttr, Span.setAttrs, Span.setStatus, lookupLast, hamb,
        INPUT_VALUE, OUTPUT_VALUE, OPENINFERENCE_SPAN_KIND, LLM_TOKEN_COUNT_PROMPT,
        LLM_TOKEN_COUNT_COMPLETION, LLM_TOKEN_COUNT_TOTAL, hamb2]
    · simp [Span.setAttr, Span.setAttrs, Span.setStatus]
  · simp only [_RunWrapper, hiv, haa, hmj, flatten_two_strings]
    refine ⟨_, rfl, ?_, ?_⟩
    · simp [Span.getAttr, Span.setAttr, Span.setAttrs, Span.setStatus, Span.recordException,
        lookupLast, hamb, INPUT_VALUE, OUTPUT_VALUE, OPENINFERENCE_SPAN_KIND,
        LLM_TOKEN_COUNT_PROMPT, LLM_TOKEN_COUNT_COMPLETION, LLM_TOKEN_COUNT_TOTAL, hamb2]
    · simp [Span.setAttr, Span.setAttrs, Span.setStatus, Span.recordException]

/-- Witness for C10 at the concrete `run(task="2+2")` interception. -/
theorem run_input_value_is_task_witness :
    _get_input_value sigTask [.vstr "2+2"] [] = .ok "\x7b\"task\": \"2+2\"\x7d"
    ∧ runAdditionalArgs [] = .ok (.vstr "")
    ∧ managedAgentsJson agentFix = .ok (.vstr "[]")
    ∧ lookupLast [] INPUT_VALUE = none
    ∧ ((∃ s, (_RunWrapper ⟨false, []⟩ agentFix sigTask [.vstr "2+2"] [] (.ok (.vint 4))).2
          = some s
        ∧ s.getAttr INPUT_VALUE = some (.vstr agentFix.task)
        ∧ (INPUT_VALUE, .vstr "\x7b\"task\": \"2+2\"\x7d") ∈ s.attrLog)
      ∧ (∃ s, (_RunWrapper ⟨false, []⟩ agentFix sigTask [.vstr "2+2"] [] (.error excBoom)).2
          = some s
        ∧ s.getAttr INPUT_VALUE = some (.vstr agentFix.task)
        ∧ (INPUT_VALUE, .vstr "\x7b\"task\": \"2+2\"\x7d") ∈ s.attrLog)) :=
  ⟨rfl, rfl, rfl, rfl,
    run_input_value_is_task [] agentFix sigTask [.vstr "2+2"] [] "\x7b\"task\": \"2+2\"\x7d"
      (.vstr "") (.vstr "[]") (.vint 4) excBoom rfl rfl rfl rfl⟩

/-- C7 counterexample: in the Model wrapper the ambient-context attributes
are merged inside the span's initial attribute mapping, not as the final
step: with an ambient attribute on the output-value key and a successful
call, the value remaining on the span is the post-call serialized output
("\x7b\x7d"), not the ambient value ("ambient") — the ambient value does not
win the collision. -/
theorem model_wrapper_ambient_loses_to_post_call :
    ((_ModelWrapper ⟨false, [(OUTPUT_VALUE, .vstr "ambient")]⟩ modelFix [] [] []
        (.ok outFix)).2.map (fun s => s.getAttr OUTPUT_VALUE))
      = some (some (.vstr "\x7b\x7d"))
    ∧ Value.vstr "\x7b\x7d" ≠ Value.vstr "ambient" := by
  constructor
  · rfl
  · simp

/-- C7 amended: the Run, Step, and ToolInvocation wrappers merge the
ambient-context attributes as the final step of the success path, so on any
key the ambient mapping supplies, the ambient value is what remains on the
span; the Model wrapper instead merges the ambient attributes into the span's
initial attribute mapping (after the input-side attributes, before the
post-call attributes), so the ambient value remains only on keys that no
post-call attribute writes (token counts, model name, output value/mime type,
output messages, tool schemas) — on a collision with those, the post-call
value remains (see the counterexample). -/
theorem ambient_context_merge_order
    (amb : List (String × Value)) (k : String) (v : Value)
    (hk : lookupLast amb k = some v)
    (agent : AgentView) (rsig : List Param) (rargs : List Value)
    (rkw : List (String × Value)) (riv : String) (raa mj rout : Value)
    (hiv : _get_input_value rsig rargs rkw = .ok riv)
    (haa : runAdditionalArgs rkw = .ok raa)
    (hmj : managedAgentsJson agent = .ok mj)
    (n : Int) (slog : StepLog) (sres : Value)
    (m : ModelView) (msig : List Param) (margs : List Value)
    (mkw : List (String × Value)) (bargs ivm ips ta ovm : List (String × Value))
    (out : OutputMessage)
    (hb : _bind_arguments msig margs mkw = .ok bargs)
    (hivm : _input_value_and_mime_type bargs = .ok ivm)
    (hips : _llm_invocation_parameters m bargs = .ok ips)
    (hta : _llm_tools ((lookupLast bargs "tools_to_call_from").getD (.vlist .nil)) = .ok ta)
    (hov : _output_value_and_mime_type out = .ok ovm)
    (h5 : k ∉ [LLM_TOKEN_COUNT_PROMPT, LLM_TOKEN_COUNT_COMPLETION, LLM_MODEL_NAME,
      LLM_TOKEN_COUNT_TOTAL, OUTPUT_VALUE])
    (hom : k ∉ (_llm_output_messages out).map Prod.fst)
    (hta2 : k ∉ ta.map Prod.fst)
    (hov2 : k ∉ ovm.map Prod.fst)
    (t : ToolView) (tsig : List Param) (targs : List Value)
    (tkw : List (String × Value)) (tiv kj : String) (tres : Value)
    (htiv : _get_input_value tsig targs tkw = .ok tiv)
    (hkj : plainDumps (.vmap (VMap.ofList tkw)) = .ok kj) :
    (∃ s, (_RunWrapper ⟨false, amb⟩ agent rsig rargs rkw (.ok rout)).2 = some s
      ∧ s.getAttr k = some v)
    ∧ (∃ s, (_StepWrapper ⟨false, amb⟩ n slog (.ok sres)).2 = some s
      ∧ s.getAttr k = some v)
    ∧ (∃ s, (_ModelWrapper ⟨false, amb⟩ m msig margs mkw (.ok out)).2 = some s
      ∧ s.getAttr k = some v)
    ∧ (∃ s, (_ToolCallWrapper ⟨false, amb⟩ t tsig targs tkw (.ok tres)).2 = some s
      ∧ s.getAttr k = some v) := by
  refine ⟨?_, ?_, ?_, ?_⟩
  · simp only [_RunWrapper, hiv, haa, hmj, flatten_two_strings]
    refine ⟨_, rfl, ?_⟩
    simp [Span.getAttr, Span.setAttr, Span.setAttrs, Span.setStatus, lookupLast, hk]
  · cases hn : pyIsNone sres <;> cases he : slog.error <;>
      simp only [_StepWrapper, hn, he] <;>
      refine ⟨_, rfl, ?_⟩ <;>
      simp [Span.getAttr, Span.setAttr, Span.setAttrs, Span.setStatus, lookupLast, hk]
  · simp only [List.mem_cons, List.mem_singleton, not_or] at h5
    obtain ⟨n1, n2, n3, n4, n5, -⟩ := h5
    have b1 : (LLM_TOKEN_COUNT_PROMPT == k) = false := beq_eq_false_iff_ne.mpr (Ne.symm n1)
    have b2 : (LLM_TOKEN_COUNT_COMPLETION == k) = false := beq_eq_false_iff_ne.mpr (Ne.symm n2)
    have b3 : (LLM_MODEL_NAME == k) = false := beq_eq_false_iff_ne.mpr (Ne.symm n3)
    have b4 : (LLM_TOKEN_COUNT_TOTAL == k) = false := beq_eq_false_iff_ne.mpr (Ne.symm n4)
    have b5 : (OUTPUT_VALUE == k) = false := beq_eq_false_iff_ne.mpr (Ne.symm n5)
    have hOm : lookupLast (_llm_output_messages out) k = none := lookupLast_eq_none _ k hom
    have hTa : lookupLast ta k = none := lookupLast_eq_none _ k hta2
    have hOv : lookupLast ovm k = none := lookupLast_eq_none _ k hov2
    simp only [_ModelWrapper, hb, hivm, hips, hta, hov]
    refine ⟨_, rfl, ?_⟩
    simp [Span.getAttr, Span.setAttr, Span.setAttrs, Span.setStatus, lookupLast_append,
      lookupLast, hOm, hTa, hOv, b1, b2, b3, b4, b5, hk]
  · simp only [_ToolCallWrapper, htiv, hkj, flatten_two_strings]
    refine ⟨_, rfl, ?_⟩
    simp [Span.getAttr, Span.setAttr, Span.setAttrs, Span.setStatus, lookupLast, hk]

/-- Witness for the C7 amended theorem: ambient context supplies a
`session.id` attribute, which survives on all four spans. -/
theorem ambient_context_merge_order_witness :
    lookupLast [("session.id", .vstr "abc")] "session.id" = some (.vstr "abc")
    ∧ _get_input_value sigTask [.vstr "2+2"] [] = .ok "\x7b\"task\": \"2+2\"\x7d"
    ∧ runAdditionalArgs [] = .ok (.vstr "")
    ∧ managedAgentsJson agentFix = .ok (.vstr "[]")
    ∧ _bind_arguments [] [] [] = .ok []
    ∧ _input_value_and_mime_type [] =
        .ok [(INPUT_MIME_TYPE, .vstr JSON_MIME), (INPUT_VALUE, .vstr "\x7b\x7d")]
    ∧ _llm_invocation_parameters modelFix [] = .ok [(LLM_INVOCATION_PARAMETERS, .vstr "\x7b\x7d")]
    ∧ _llm_tools ((lookupLast [] "tools_to_call_from").getD (.vlist .nil)) = .ok []
    ∧ _output_value_and_mime_type outFix =
        .ok [(OUTPUT_MIME_TYPE, .vstr JSON_MIME), (OUTPUT_VALUE, .vstr "\x7b\x7d")]
    ∧ "session.id" ∉ [LLM_TOKEN_COUNT_PROMPT, LLM_TOKEN_COUNT_COMPLETION, LLM_MODEL_NAME,
        LLM_TOKEN_COUNT_TOTAL, OUTPUT_VALUE]
    ∧ "session.id" ∉ (_llm_output_messages outFix).map Prod.fst
    ∧ "session.id" ∉ ([] : List (String × Value)).map Prod.fst
    ∧ "session.id" ∉
        [(OUTPUT_MIME_TYPE, Value.vstr JSON_MIME), (OUTPUT_VALUE, Value.vstr "\x7b\x7d")].map
          Prod.fst
    ∧ _get_input_value [] [] [] = .ok "\x7b\x7d"
    ∧ plainDumps (.vmap (VMap.ofList [])) = .ok "\x7b\x7d"
    ∧ ((∃ s, (_RunWrapper ⟨false, [("session.id", .vstr "abc")]⟩ agentFix sigTask
          [.vstr "2+2"] [] (.ok (.vint 4))).2 = some s
        ∧ s.getAttr "session.id" = some (.vstr "abc"))
      ∧ (∃ s, (_StepWrapper ⟨false, [("session.id", .vstr "abc")]⟩ 1 stepLogFix
          (.ok (.vstr "fin"))).2 = some s
        ∧ s.getAttr "session.id" = some (.vstr "abc"))
      ∧ (∃ s, (_ModelWrapper ⟨false, [("session.id", .vstr "abc")]⟩ modelFix [] [] []
          (.ok outFix)).2 = some s
        ∧ s.getAttr "session.id" = some (.vstr "abc"))
      ∧ (∃ s, (_ToolCallWrapper ⟨false, [("session.id", .vstr "abc")]⟩ toolFix [] [] []
          (.ok (.vstr "result"))).2 = some s
        ∧ s.getAttr "session.id" = some (.vstr "abc"))) :=
  ⟨rfl, rfl, rfl, rfl, rfl, rfl, rfl, rfl, rfl, by decide, by decide, by decide, by decide,
    rfl, rfl,
    ambient_context_merge_order [("session.id", .vstr "abc")] "session.id" (.vstr "abc") rfl
      agentFix sigTask [.vstr "2+2"] [] "\x7b\"task\": \"2+2\"\x7d" (.vstr "") (.vstr "[]")
      (.vint 4) rfl rfl rfl 1 stepLogFix (.vstr "fin") modelFix [] [] [] []
      [(INPUT_MIME_TYPE, .vstr JSON_MIME), (INPUT_VALUE, .vstr "\x7b\x7d")]
      [(LLM_INVOCATION_PARAMETERS, .vstr "\x7b\x7d")] []
      [(OUTPUT_MIME_TYPE, .vstr JSON_MIME), (OUTPUT_VALUE, .vstr "\x7b\x7d")] outFix
      rfl rfl rfl rfl rfl (by decide) (by decide) (by decide) (by decide)
      toolFix [] [] [] "\x7b\x7d" "\x7b\x7d" (.vstr "result") rfl rfl⟩
